import Mathlib

/-!
Verification of the Finance MCP Server core
(`src/mcp_servers/finance_server`): cache-key derivation and request
dispatch (`server.py`), the TTL cache (`utils/cache.py`), the technical
indicator engine (`engines/technical_engine.py`) and the fundamental
ratio engine (`engines/fundamental_engine.py`), shallowly embedded in
Lean with exact rational arithmetic in place of IEEE doubles (an
explicit `PyFloat` type carries the non-finite values `nan`, `inf`,
`-inf` that numpy/pandas arithmetic can produce).
-/

namespace FinanceServer

/-! ## JSON values and `json.dumps(..., sort_keys=True)`

`Json` models the Python values that appear as tool parameters and
responses.  Numbers are modelled as integers (`toString` agrees with
Python's `repr` for `int`).  `dumps` models `json.dumps` with its
default separators `", "` and `": "`; with `sortKeys := true` every
object's fields are serialized in ascending key order, exactly as
`json.dumps(params, sort_keys=True)` does in `_generate_cache_key`. -/

inductive Json where
  | null : Json
  | bool (b : Bool) : Json
  | num (n : Int) : Json
  | str (s : String) : Json
  | arr (xs : List Json) : Json
  | obj (fields : List (String × Json)) : Json

/-- Escaping of the characters that `json.dumps` escapes in the
default (ensure-ascii) mode, for the character set that occurs in tool
parameters. -/
def escapeChar (c : Char) : String :=
  if c = '"' then "\\\""
  else if c = '\\' then "\\\\"
  else if c = '\n' then "\\n"
  else if c = '\t' then "\\t"
  else if c = '\r' then "\\r"
  else String.singleton c

def escapeString (s : String) : String :=
  String.join (s.data.map escapeChar)

/-- Join with a separator (`", ".join(...)`). -/
def joinSep (sep : String) : List String → String
  | [] => ""
  | [x] => x
  | x :: y :: xs => x ++ sep ++ joinSep sep (y :: xs)

/-- Sorting an object's fields by key, as `sort_keys=True` does
(Python compares `str` keys by code points, as Lean's `≤` on `String`
does). -/
def sortFields (fs : List (String × Json)) : List (String × Json) :=
  List.insertionSort (fun a b => a.1 ≤ b.1) fs

/-- Models `json.dumps(v, sort_keys=True)`. -/
def dumps : Json → String
  | .null => "null"
  | .bool true => "true"
  | .bool false => "false"
  | .num n => toString n
  | .str s => "\"" ++ escapeString s ++ "\""
  | .arr xs => "[" ++ joinSep ", " (xs.attach.map (fun x => dumps x.1)) ++ "]"
  | .obj fs =>
      "\x7b" ++
        joinSep ", " ((sortFields fs).attach.map
          (fun f => "\"" ++ escapeString f.1.1 ++ "\": " ++ dumps f.1.2)) ++
      "\x7d"
decreasing_by
  · have h1 := List.sizeOf_lt_of_mem x.2
    simp only [Json.arr.sizeOf_spec]
    omega
  · have hmem : f.1 ∈ fs := (List.mem_insertionSort _).mp f.2
    have h1 := List.sizeOf_lt_of_mem hmem
    have h2 : sizeOf f.1.2 < sizeOf f.1 := by
      obtain ⟨a, b⟩ := f.1
      simp only [Prod.mk.sizeOf_spec]
      omega
    simp only [Json.obj.sizeOf_spec]
    omega

/-- Models `FinanceMCPServer._generate_cache_key`: the parameters dict is
serialized with `json.dumps(params, sort_keys=True)` and prefixed with
the tool name and a colon (`f"{tool_name}:{param_str}"`). -/
def generate_cache_key (tool_name : String) (params : List (String × Json)) : String :=
  tool_name ++ ":" ++ dumps (Json.obj params)

/-! ## Python dict primitives

Python dicts are modelled as association lists with unique keys, in
insertion order.  `dlookup` is `d[k]` / `d.get(k)`; `upsert` is
`d[k] = v` (replace in place if the key exists, else append). -/

def dlookup {α : Type} : List (String × α) → String → Option α
  | [], _ => none
  | (k', v) :: rest, k => if k' = k then some v else dlookup rest k

def upsert {α : Type} : List (String × α) → String → α → List (String × α)
  | [], k, v => [(k, v)]
  | (k', v') :: rest, k, v =>
      if k' = k then (k, v) :: rest else (k', v') :: upsert rest k v

def eraseKey {α : Type} (d : List (String × α)) (k : String) : List (String × α) :=
  d.filter (fun p => p.1 ≠ k)

/-! ## The TTL cache (`utils/cache.py`)

`DataCache` holds `self._cache` (a dict from key to
`{"value": ..., "expiry": ...}`) and `self._default_ttl`.  Wall-clock
time (`time.time()`) is passed explicitly as a rational `now`; the
stateful methods return their Python result paired with the updated
cache.  `expiry ≠ 0` models the truthiness test `if expiry_time and ...`
(a float is falsy exactly when it is `0.0`). -/

structure CacheEntry (V : Type) where
  value : V
  expiry : ℚ
deriving DecidableEq

structure DataCache (V : Type) where
  store : List (String × CacheEntry V)
  default_ttl : ℚ
deriving DecidableEq

/-- Models `DataCache()` (default TTL one hour). -/
def DataCache.empty (V : Type) : DataCache V := ⟨[], 3600⟩

/-- Models `DataCache.get`: absent key returns `None`; a present entry whose
expiry is truthy and strictly in the past is deleted and reported
absent; otherwise the stored value is returned. -/
def DataCache.get {V : Type} (c : DataCache V) (key : String) (now : ℚ) :
    Option V × DataCache V :=
  match dlookup c.store key with
  | none => (none, c)
  | some entry =>
      if entry.expiry ≠ 0 ∧ now > entry.expiry then
        (none, { c with store := eraseKey c.store key })
      else
        (some entry.value, c)

/-- Models `DataCache.set`: stores `{"value": value, "expiry": now + ttl}`,
falling back to the default TTL when none is given. -/
def DataCache.set {V : Type} (c : DataCache V) (key : String) (value : V)
    (ttl : Option ℚ) (now : ℚ) : DataCache V :=
  { c with store := upsert c.store key ⟨value, now + ttl.getD c.default_ttl⟩ }

/-- Models `DataCache.delete`: `True` iff the key was present (no expiry
check), deleting it. -/
def DataCache.delete {V : Type} (c : DataCache V) (key : String) :
    Bool × DataCache V :=
  match dlookup c.store key with
  | some _ => (true, { c with store := eraseKey c.store key })
  | none => (false, c)

/-- The keys `DataCache.cleanup` would sweep: entries whose expiry is
strictly in the past (`current_time > entry["expiry"]`; every stored
entry has an `"expiry"` field). -/
def DataCache.expiredKeys {V : Type} (c : DataCache V) (now : ℚ) : List String :=
  (c.store.filter (fun p => now > p.2.expiry)).map Prod.fst

/-- Models `DataCache.cleanup`: removes all swept entries and returns how many. -/
def DataCache.cleanup {V : Type} (c : DataCache V) (now : ℚ) :
    ℕ × DataCache V :=
  ((c.expiredKeys now).length,
    { c with store := c.store.filter (fun p => ¬ now > p.2.expiry) })

/-! ## Python/numpy floating-point values

`PyFloat` is the value domain of a pandas float series: a finite value
(modelled exactly as a rational) or one of `nan`, `inf`, `-inf`.
`nan` doubles as pandas' missing-value marker.  The arithmetic follows
IEEE-754 semantics as numpy implements them: operations are total,
division by zero yields a signed infinity or `nan`, and `nan`
propagates. -/

inductive PyFloat where
  | nan : PyFloat
  | inf : PyFloat
  | ninf : PyFloat
  | fin (q : ℚ) : PyFloat
deriving DecidableEq

namespace PyFloat

def isNan : PyFloat → Bool
  | nan => true
  | _ => false

def isFin : PyFloat → Bool
  | fin _ => true
  | _ => false

def neg : PyFloat → PyFloat
  | nan => nan
  | inf => ninf
  | ninf => inf
  | fin q => fin (-q)

def add : PyFloat → PyFloat → PyFloat
  | nan, _ => nan
  | _, nan => nan
  | inf, ninf => nan
  | ninf, inf => nan
  | inf, _ => inf
  | _, inf => inf
  | ninf, _ => ninf
  | _, ninf => ninf
  | fin a, fin b => fin (a + b)

def sub (a b : PyFloat) : PyFloat := add a (neg b)

def mul : PyFloat → PyFloat → PyFloat
  | nan, _ => nan
  | _, nan => nan
  | inf, inf => inf
  | inf, ninf => ninf
  | ninf, inf => ninf
  | ninf, ninf => inf
  | inf, fin q => if q > 0 then inf else if q < 0 then ninf else nan
  | fin q, inf => if q > 0 then inf else if q < 0 then ninf else nan
  | ninf, fin q => if q > 0 then ninf else if q < 0 then inf else nan
  | fin q, ninf => if q > 0 then ninf else if q < 0 then inf else nan
  | fin a, fin b => fin (a * b)

def div : PyFloat → PyFloat → PyFloat
  | nan, _ => nan
  | _, nan => nan
  | inf, inf => nan
  | inf, ninf => nan
  | ninf, inf => nan
  | ninf, ninf => nan
  | inf, fin q => if q < 0 then ninf else inf
  | ninf, fin q => if q < 0 then inf else ninf
  | fin _, inf => fin 0
  | fin _, ninf => fin 0
  | fin a, fin b =>
      if b = 0 then (if a > 0 then inf else if a < 0 then ninf else nan)
      else fin (a / b)

/-- Models `x > 0` as numpy evaluates it on floats (`nan > 0` is `False`). -/
def gtZero : PyFloat → Bool
  | inf => true
  | fin q => decide (q > 0)
  | _ => false

/-- Models `x < 0` (`nan < 0` is `False`). -/
def ltZero : PyFloat → Bool
  | ninf => true
  | fin q => decide (q < 0)
  | _ => false

def absF : PyFloat → PyFloat
  | nan => nan
  | inf => inf
  | ninf => inf
  | fin q => fin |q|

/-- Models `np.sign`. -/
def sign : PyFloat → PyFloat
  | nan => nan
  | inf => fin 1
  | ninf => fin (-1)
  | fin q => if q > 0 then fin 1 else if q < 0 then fin (-1) else fin 0

/-- Row-wise `DataFrame.max(axis=1)` combines values skipping NaN
(`skipna=True` default). -/
def maxSkipNan : PyFloat → PyFloat → PyFloat
  | nan, b => b
  | a, nan => a
  | inf, _ => inf
  | _, inf => inf
  | ninf, b => b
  | a, ninf => a
  | fin a, fin b => fin (max a b)

end PyFloat

/-! ## Pandas series operations

A pandas float series is a `List PyFloat`; source columns, read from
numeric price rows, are `List ℚ` (no missing values).  Rolling
aggregations use the default `min_periods = window`: the output is
`nan` until the window is full, and `nan` whenever the full window
contains a `nan` (NaN observations do not count). -/

/-- Models `series.diff()`: first element NaN, then successive differences. -/
def diffQ : List ℚ → List PyFloat
  | [] => []
  | x :: rest => .nan :: List.zipWith (fun a b => PyFloat.fin (a - b)) rest (x :: rest)

/-- Models `series.shift()` of a numeric series: NaN, then all but the last
value. -/
def shiftQ (xs : List ℚ) : List PyFloat :=
  match xs with
  | [] => []
  | _ :: _ => .nan :: (xs.dropLast.map PyFloat.fin)

/-- The observation window ending at index `i` (the last `w` entries
of `xs.take (i+1)`). -/
def window (w : ℕ) (xs : List PyFloat) (i : ℕ) : List PyFloat :=
  (xs.take (i + 1)).drop (i + 1 - w)

/-- Models `series.rolling(window=w).mean()`. -/
def rollingMean (w : ℕ) (xs : List PyFloat) : List PyFloat :=
  (List.range xs.length).map (fun i =>
    if i + 1 < w then .nan
    else
      let win := window w xs i
      if win.any PyFloat.isNan then .nan
      else (win.foldl PyFloat.add (.fin 0)).div (.fin (w : ℚ)))

/-- Models `series.rolling(window=w).std()` on a numeric series: sample
standard deviation (`ddof=1`) of each full window.  The square root
has no exact rational representative, so it is taken through an
abstract evaluator `sqrtO`; every theorem quantifies over it. -/
def rollingStd (sqrtO : ℚ → ℚ) (w : ℕ) (xs : List ℚ) : List PyFloat :=
  (List.range xs.length).map (fun i =>
    if i + 1 < w then .nan
    else
      let win := (xs.take (i + 1)).drop (i + 1 - w)
      let mean := win.sum / (w : ℚ)
      .fin (sqrtO ((win.map (fun x => (x - mean) ^ 2)).sum / ((w : ℚ) - 1))))

/-- Models `series.rolling(window=w).min()` on a numeric series. -/
def rollingMin (w : ℕ) (xs : List ℚ) : List PyFloat :=
  (List.range xs.length).map (fun i =>
    if i + 1 < w then .nan
    else
      let win := (xs.take (i + 1)).drop (i + 1 - w)
      .fin (win.foldl min win.headI))

/-- Models `series.rolling(window=w).max()` on a numeric series. -/
def rollingMax (w : ℕ) (xs : List ℚ) : List PyFloat :=
  (List.range xs.length).map (fun i =>
    if i + 1 < w then .nan
    else
      let win := (xs.take (i + 1)).drop (i + 1 - w)
      .fin (win.foldl max (win.headI)))

/-- Models `series.ewm(span=p, adjust=False).mean()` on a numeric series:
`e₀ = x₀`, `eᵢ = α·xᵢ + (1−α)·eᵢ₋₁` with smoothing factor
`α = 2/(p+1)`.  Defined from the very first element (no NaN). -/
def ewmMean (span : ℕ) : List ℚ → List ℚ
  | [] => []
  | x :: rest =>
      List.scanl (fun e y => (2 / ((span : ℚ) + 1)) * y
        + (1 - 2 / ((span : ℚ) + 1)) * e) x rest

/-- Models `series.cumsum()`. -/
def cumsum (xs : List PyFloat) : List PyFloat :=
  match xs with
  | [] => []
  | x :: rest => List.scanl PyFloat.add x rest

/-! ## The technical analysis engine (`engines/technical_engine.py`)

A price DataFrame is its named numeric columns.  `process_indicators`
first resolves the canonical OHLCV concepts through the alias table
`required_cols`; the rename is modelled by `stdCol`, which reads a
canonical column through the first alias present.  The date/index
normalisation in the source touches only date-like columns (none of
the canonical names contain a date term) and feeds only the `"dates"`
field of the result, which no claim concerns; it is not modelled. -/

structure DataFrame where
  cols : List (String × List ℚ)

def DataFrame.hasCol (df : DataFrame) (name : String) : Bool :=
  (dlookup df.cols name).isSome

/-- The alias table `required_cols` of `process_indicators`. -/
def required_cols : List (String × List String) :=
  [("open", ["open", "Open", "开盘", "开盘价"]),
   ("high", ["high", "High", "高", "最高价"]),
   ("low", ["low", "Low", "低", "最低价"]),
   ("close", ["close", "Close", "收盘", "收盘价"]),
   ("volume", ["volume", "Volume", "成交量", "成交额"])]

/-- Models `column_mapping`: for each canonical concept, the first alias
present in the DataFrame (the dict `{col_name: std_name}`; the alias
lists are pairwise disjoint, so its size is the number of concepts
that resolve). -/
def column_mapping (df : DataFrame) : List (String × String) :=
  required_cols.filterMap (fun p =>
    (p.2.find? df.hasCol).map (fun a => (a, p.1)))

/-- The canonical concepts (among the five) that resolve. -/
def resolvedConcepts (df : DataFrame) : List String :=
  required_cols.filterMap (fun p =>
    if p.2.any df.hasCol then some p.1 else none)

/-- How many of the four price concepts `open/high/low/close` resolve. -/
def ohlcResolvedCount (df : DataFrame) : ℕ :=
  (["open", "high", "low", "close"].filter
    (fun s => s ∈ resolvedConcepts df)).length

/-- Reading column `std` of the renamed DataFrame
(`price_df.rename(columns=column_mapping)`): the data of the first
alias present.  `none` models the `KeyError` raised by `df[std]`. -/
def stdCol (df : DataFrame) (std : String) : Option (List ℚ) :=
  match (column_mapping df).find? (fun p => p.2 = std) with
  | some (orig, _) => dlookup df.cols orig
  | none => none

/-- Models `df[name]`, as an `Except` carrying `str(KeyError(name))`. -/
def getCol (df : DataFrame) (name : String) : Except String (List ℚ) :=
  match stdCol df name with
  | some c => .ok c
  | none => .error ("'" ++ name ++ "'")

/-- A value of the per-indicator result mapping: a series, a named
table of series, or an `{"error": msg}` note. -/
inductive IndVal where
  | series (xs : List PyFloat) : IndVal
  | table (rows : List (String × List PyFloat)) : IndVal
  | errObj (msg : String) : IndVal
deriving DecidableEq

/-- The MA branch: simple rolling means of close. -/
def maSeries (p : ℕ) (close : List ℚ) : List PyFloat :=
  rollingMean p (close.map .fin)

/-- The EMA branch: `close.ewm(span=p, adjust=False).mean()`. -/
def emaSeries (p : ℕ) (close : List ℚ) : List PyFloat :=
  (ewmMean p close).map .fin

/-- MACD line: `EMA12(close) − EMA26(close)`. -/
def macdLine (close : List ℚ) : List ℚ :=
  List.zipWith (fun a b => a - b) (ewmMean 12 close) (ewmMean 26 close)

/-- MACD signal line: `EMA9(macd line)`. -/
def signalLine (close : List ℚ) : List ℚ :=
  ewmMean 9 (macdLine close)

/-- MACD histogram: macd − signal. -/
def histogram (close : List ℚ) : List ℚ :=
  List.zipWith (fun a b => a - b) (macdLine close) (signalLine close)

/-- Models `gain = delta.where(delta > 0, 0)` over `delta = close.diff()`
(the comparison maps the leading NaN to 0). -/
def rsiGain (close : List ℚ) : List PyFloat :=
  (diffQ close).map (fun d => if d.gtZero then d else .fin 0)

/-- Models `loss = -delta.where(delta < 0, 0)`. -/
def rsiLoss (close : List ℚ) : List PyFloat :=
  ((diffQ close).map (fun d => if d.ltZero then d else .fin 0)).map PyFloat.neg

/-- The RSI(14) branch: 14-row rolling averages of gain and loss,
`RS = avg gain / avg loss`, `RSI = 100 − 100/(1 + RS)`. -/
def rsiSeries (close : List ℚ) : List PyFloat :=
  let avgGain := rollingMean 14 (rsiGain close)
  let avgLoss := rollingMean 14 (rsiLoss close)
  let rs := List.zipWith PyFloat.div avgGain avgLoss
  rs.map (fun r =>
    PyFloat.sub (.fin 100) (PyFloat.div (.fin 100) (PyFloat.add (.fin 1) r)))

/-- The BOLLINGER(20, 2) branch. -/
def bollingerRows (sqrtO : ℚ → ℚ) (close : List ℚ) :
    List (String × List PyFloat) :=
  let sma := rollingMean 20 (close.map .fin)
  let rstd := rollingStd sqrtO 20 close
  [("middle_band", sma),
   ("upper_band", List.zipWith PyFloat.add sma
      (rstd.map (fun s => PyFloat.mul s (.fin 2)))),
   ("lower_band", List.zipWith PyFloat.sub sma
      (rstd.map (fun s => PyFloat.mul s (.fin 2))))]

/-- The ATR(14) branch: true range rows combined with
`DataFrame.max(axis=1)` (skipping NaN), then a 14-row rolling mean. -/
def atrSeries (high low close : List ℚ) : List PyFloat :=
  let tr1 := List.zipWith (fun h l => PyFloat.fin (h - l)) high low
  let prevClose := shiftQ close
  let tr2 := List.zipWith (fun h pc => (PyFloat.sub (.fin h) pc).absF) high prevClose
  let tr3 := List.zipWith (fun l pc => (PyFloat.sub (.fin l) pc).absF) low prevClose
  let tr := List.zipWith PyFloat.maxSkipNan (List.zipWith PyFloat.maxSkipNan tr1 tr2) tr3
  rollingMean 14 tr

/-- The STOCHASTIC(14, 3) branch. -/
def stochasticRows (high low close : List ℚ) : List (String × List PyFloat) :=
  let lowMin := rollingMin 14 low
  let highMax := rollingMax 14 high
  let k := List.zipWith (fun c lmhm =>
      PyFloat.mul (.fin 100) (PyFloat.div (PyFloat.sub (.fin c) lmhm.1)
        (PyFloat.sub lmhm.2 lmhm.1)))
    close (List.zip lowMin highMax)
  [("k_line", k), ("d_line", rollingMean 3 k)]

/-- The OBV branch body:
`(np.sign(close.diff()) * volume).fillna(0).cumsum()`. -/
def obvSeries (close volume : List ℚ) : List PyFloat :=
  cumsum ((List.zipWith (fun d v => PyFloat.mul d.sign (.fin v))
      (diffQ close) volume).map
    (fun x => if x.isNan then .fin 0 else x))

/-- Python's `str.upper()` (character-wise uppercasing; the branch
guards only compare against ASCII names, where `Char.toUpper` and
Python agree). -/
def pyUpper (s : String) : String :=
  String.mk (s.data.map Char.toUpper)

/-- The names of the supported indicators, i.e. the branch guards of
the `elif` chain. -/
def supportedIndicators : List String :=
  ["MA", "EMA", "MACD", "RSI", "BOLLINGER", "ATR", "STOCHASTIC", "OBV"]

/-- One pass of the `elif` chain of `process_indicators` on the
uppercased indicator name `u`.  `none` means no branch matched (the
indicator is silently skipped); `.error e` models an exception with
message `e` escaping the branch (a `KeyError` on a missing canonical
column — the only exception source for numeric data); `.ok v` is the
value stored into `result["indicators"]`.  The OBV branch checks
`'volume' in df.columns` first and stores an error note (a normal
value, not an exception) when it is absent. -/
def indCompute (sqrtO : ℚ → ℚ) (df : DataFrame) (u : String) :
    Option (Except String IndVal) :=
  if u = "MA" then some (do
    let c ← getCol df "close"
    pure (IndVal.table [("MA5", maSeries 5 c), ("MA10", maSeries 10 c),
      ("MA20", maSeries 20 c), ("MA60", maSeries 60 c)]))
  else if u = "EMA" then some (do
    let c ← getCol df "close"
    pure (IndVal.table [("EMA5", emaSeries 5 c), ("EMA10", emaSeries 10 c),
      ("EMA20", emaSeries 20 c), ("EMA60", emaSeries 60 c)]))
  else if u = "MACD" then some (do
    let c ← getCol df "close"
    pure (IndVal.table
      [("macd_line", (macdLine c).map .fin),
       ("signal_line", (signalLine c).map .fin),
       ("histogram", (histogram c).map .fin)]))
  else if u = "RSI" then some (do
    let c ← getCol df "close"
    pure (IndVal.series (rsiSeries c)))
  else if u = "BOLLINGER" then some (do
    let c ← getCol df "close"
    pure (IndVal.table (bollingerRows sqrtO c)))
  else if u = "ATR" then some (do
    let h ← getCol df "high"
    let l ← getCol df "low"
    let c ← getCol df "close"
    pure (IndVal.series (atrSeries h l c)))
  else if u = "STOCHASTIC" then some (do
    let l ← getCol df "low"
    let h ← getCol df "high"
    let c ← getCol df "close"
    pure (IndVal.table (stochasticRows h l c)))
  else if u = "OBV" then some (
    match stdCol df "volume" with
    | some v => do
        let c ← getCol df "close"
        pure (IndVal.series (obvSeries c v))
    | none => .ok (IndVal.errObj "Volume data not available"))
  else none

/-- One iteration of the `for indicator in indicators` loop: the
mapping entry it writes, if any.  A branch that completes stores its
value under the canonical (uppercased) name; the `except` clause
stores `{"error": str(e)}` under the indicator string as requested. -/
def runIndicator (sqrtO : ℚ → ℚ) (df : DataFrame) (ind : String) :
    Option (String × IndVal) :=
  match indCompute sqrtO df (pyUpper ind) with
  | none => none
  | some (.ok v) => some (pyUpper ind, v)
  | some (.error e) => some (ind, IndVal.errObj e)

/-- The result of `process_indicators`: either the single top-level
`{"error": ...}` (with nothing computed), or the `"indicators"`
mapping.  (The auxiliary `"dates"` field is not modelled.) -/
structure PIResult where
  topError : Option String
  indicators : List (String × IndVal)
deriving DecidableEq

/-- Models `TechnicalAnalysisEngine.process_indicators`: resolve columns,
fail the whole call when fewer than 4 concepts resolve
(`len(column_mapping) < 4`), otherwise run every requested indicator
in order, each in its own `try`/`except`. -/
def process_indicators (sqrtO : ℚ → ℚ) (df : DataFrame)
    (indicators : List String) : PIResult :=
  if (column_mapping df).length < 4 then
    ⟨some "Price data missing required columns (OHLC)", []⟩
  else
    ⟨none, indicators.foldl (fun acc ind =>
      match runIndicator sqrtO df ind with
      | none => acc
      | some (k, v) => upsert acc k v) []⟩

/-! ## The fundamental analysis engine (`engines/fundamental_engine.py`)

A statement period is a mapping from line-item label to numeric value;
`pyGetD f k` is `data.get(k, 0)` and `pyOr` is Python's `or` on
numbers (`0` and `0.0` are falsy).  With numeric inputs none of the
ratio calculators can raise, so the `except` branches are dead and the
result is the plain ratio dict.  `round2` models `round(x, 2)`:
Python rounds ties to the nearest even value. -/

def pyGetD (f : String → Option ℚ) (k : String) : ℚ :=
  (f k).getD 0

/-- Python `a or b` on numbers. -/
def pyOr (a b : ℚ) : ℚ :=
  if a = 0 then b else a

/-- Round to the nearest integer, ties to even (Python's `round`). -/
def halfEvenRound (x : ℚ) : ℤ :=
  let f := ⌊x⌋
  let r := x - f
  if r < 1 / 2 then f
  else if 1 / 2 < r then f + 1
  else if Even f then f else f + 1

/-- Models `round(x, 2)`. -/
def round2 (x : ℚ) : ℚ :=
  (halfEvenRound (x * 100) : ℚ) / 100

/-- Models `FundamentalAnalysisEngine.calculate_profitability_ratios`. -/
def calculate_profitability_ratios (income_data : String → Option ℚ) :
    List (String × ℚ) :=
  let total_revenue := pyOr (pyGetD income_data "营业总收入") (pyGetD income_data "营业收入")
  let net_income := pyGetD income_data "净利润"
  let gross_profit := pyOr (pyGetD income_data "毛利润")
    (total_revenue - pyGetD income_data "营业成本")
  let operating_income := pyGetD income_data "营业利润"
  let gross_margin := if total_revenue ≠ 0 then gross_profit / total_revenue else 0
  let operating_margin := if total_revenue ≠ 0 then operating_income / total_revenue else 0
  let net_margin := if total_revenue ≠ 0 then net_income / total_revenue else 0
  [("gross_margin", round2 (gross_margin * 100)),
   ("operating_margin", round2 (operating_margin * 100)),
   ("net_margin", round2 (net_margin * 100))]

/-- Models `FundamentalAnalysisEngine.calculate_liquidity_ratios`. -/
def calculate_liquidity_ratios (balance_data : String → Option ℚ) :
    List (String × ℚ) :=
  let current_assets := pyGetD balance_data "流动资产合计"
  let current_liabilities := pyGetD balance_data "流动负债合计"
  let cash := pyGetD balance_data "货币资金"
  let short_term_investments := pyOr (pyGetD balance_data "交易性金融资产") 0
  let accounts_receivable := pyOr (pyGetD balance_data "应收账款") 0
  let current_ratio := if current_liabilities ≠ 0 then
    current_assets / current_liabilities else 0
  let quick_ratio := if current_liabilities ≠ 0 then
    (cash + short_term_investments + accounts_receivable) / current_liabilities else 0
  let cash_ratio := if current_liabilities ≠ 0 then
    (cash + short_term_investments) / current_liabilities else 0
  [("current_ratio", round2 current_ratio),
   ("quick_ratio", round2 quick_ratio),
   ("cash_ratio", round2 cash_ratio)]

/-- Models `FundamentalAnalysisEngine.calculate_solvency_ratios`. -/
def calculate_solvency_ratios (balance_data income_data : String → Option ℚ) :
    List (String × ℚ) :=
  let total_assets := pyGetD balance_data "资产总计"
  let total_liabilities := pyGetD balance_data "负债合计"
  let shareholders_equity := pyGetD balance_data "所有者权益合计"
  let ebit := pyGetD income_data "利润总额" + pyGetD income_data "财务费用"
  let interest_expense := pyOr (pyGetD income_data "利息支出")
    (pyGetD income_data "财务费用" / 2)
  let debt_ratio := if total_assets ≠ 0 then total_liabilities / total_assets else 0
  let debt_to_equity := if shareholders_equity ≠ 0 then
    total_liabilities / shareholders_equity else 0
  let interest_coverage := if interest_expense ≠ 0 then ebit / interest_expense else 0
  [("debt_ratio", round2 debt_ratio),
   ("debt_to_equity", round2 debt_to_equity),
   ("interest_coverage", round2 interest_coverage)]

/-! ## The dispatcher (`server.py`, `FinanceMCPServer.handle_request`)

The incoming line has already been put through `json.loads` and the
`request.get(...)` accesses; `ParsedRequest` records the three
possible outcomes: the string was not JSON (`json.JSONDecodeError`),
it parsed to a non-dict so `request.get` raised (caught by the outer
`except Exception` handler), or it parsed to an object.  A tool
handler is abstracted as a function `run` from tool name and
parameters to either a result value or a raised exception; the
response is the object that `handle_request` serializes with
`json.dumps`. -/

inductive HandlerOutcome where
  | ok (v : Json) : HandlerOutcome
  | exc (msg : String) : HandlerOutcome

inductive ParsedRequest where
  | invalidJson : ParsedRequest
  | nonObject (excMsg : String) : ParsedRequest
  | object (fields : List (String × Json)) : ParsedRequest

/-- The keys of `self.handlers`. -/
def handlerNames : List String :=
  ["get_stock_info", "get_stock_price", "get_financial_report",
   "calc_technical_indicators", "get_industry_analysis", "analyze_financials"]

/-- Models `f"...{value}..."` interpolation of a parsed JSON value (enough
for the error messages that mention the tool name). -/
def pyStrOf : Json → String
  | .null => "None"
  | .bool true => "True"
  | .bool false => "False"
  | .num n => toString n
  | .str s => s
  | .arr _ => "<list>"
  | .obj _ => "<dict>"

/-- Models `FinanceMCPServer.handle_request`, one request in, exactly one
response object out.  An unhashable `name` (a list or dict) makes
`tool_name not in self.handlers` raise `TypeError`, which the outer
`except` turns into an `INTERNAL_ERROR`; any other non-registered
name is an `UNKNOWN_TOOL`.  Note which responses carry an `"id"`
field and which do not. -/
def handle_request (run : String → Json → HandlerOutcome)
    (req : ParsedRequest) : Json :=
  match req with
  | .invalidJson =>
      .obj [("error", .obj [("message", .str "Invalid JSON"),
                            ("code", .str "INVALID_JSON")])]
  | .nonObject m =>
      .obj [("error", .obj [("message", .str ("Unexpected error: " ++ m)),
                            ("code", .str "INTERNAL_ERROR")])]
  | .object fields =>
      let request_id := (dlookup fields "id").getD .null
      let tool_name := (dlookup fields "name").getD .null
      let params := (dlookup fields "parameters").getD (.obj [])
      match tool_name with
      | .arr _ =>
          .obj [("error", .obj [("message", .str "Unexpected error: unhashable type: 'list'"),
                                ("code", .str "INTERNAL_ERROR")])]
      | .obj _ =>
          .obj [("error", .obj [("message", .str "Unexpected error: unhashable type: 'dict'"),
                                ("code", .str "INTERNAL_ERROR")])]
      | .str s =>
          if s ∈ handlerNames then
            match run s params with
            | .ok v => .obj [("id", request_id), ("result", v)]
            | .exc m =>
                .obj [("id", request_id),
                      ("error", .obj [("message", .str ("Error processing request: " ++ m)),
                                      ("code", .str "PROCESSING_ERROR")])]
          else
            .obj [("id", request_id),
                  ("error", .obj [("message", .str ("Unknown tool: " ++ s)),
                                  ("code", .str "UNKNOWN_TOOL")])]
      | other =>
          .obj [("id", request_id),
                ("error", .obj [("message", .str ("Unknown tool: " ++ pyStrOf other)),
                                ("code", .str "UNKNOWN_TOOL")])]

/-- The `"code"` of an error response, when the value has that shape. -/
def errCodeOf (j : Json) : Option String :=
  match j with
  | .obj fs =>
      match dlookup fs "error" with
      | some (.obj efs) =>
          match dlookup efs "code" with
          | some (.str c) => some c
          | _ => none
      | _ => none
  | _ => none

/-- Is the `"error"."message"` field a string? -/
def errMsgIsStr (j : Json) : Bool :=
  match j with
  | .obj fs =>
      match dlookup fs "error" with
      | some (.obj efs) =>
          match dlookup efs "message" with
          | some (.str _) => true
          | _ => false
      | _ => false
  | _ => false

def hasKey (j : Json) (k : String) : Bool :=
  match j with
  | .obj fs => (dlookup fs k).isSome
  | _ => false

def validCodes : List String :=
  ["UNKNOWN_TOOL", "PROCESSING_ERROR", "INVALID_JSON", "INTERNAL_ERROR"]

/-- The value of a response's `"id"` field, when present. -/
def idValOf (r : Json) : Option Json :=
  match r with
  | .obj fs => dlookup fs "id"
  | _ => none

/-- The response contract the dispatcher actually satisfies: every
response is an object that is either a success `{"id": ..., "result": ...}`
or an error `{..., "error": {"message": <string>, "code": <one of the
four codes>}}`.  For a request that parsed as a JSON object, every
response except an `INTERNAL_ERROR` — that is, a success, an
`UNKNOWN_TOOL` or a `PROCESSING_ERROR` — carries the **request's own
id** (`request.get("id")`, `null` when the field is missing) as its
`"id"` value, while an `INTERNAL_ERROR` (the outer `except`, which
has abandoned the extracted id) carries no `"id"` at all.  A request
that did not parse to a JSON object can only be answered with
`INVALID_JSON` or `INTERNAL_ERROR`, both without an `"id"`. -/
def goodResponse (req : ParsedRequest) (r : Json) : Prop :=
  (match errCodeOf r with
   | some c => c ∈ validCodes ∧ errMsgIsStr r = true
   | none => hasKey r "result" = true) ∧
  (match req with
   | .object fields =>
       if errCodeOf r = some "INTERNAL_ERROR" then idValOf r = none
       else idValOf r = some ((dlookup fields "id").getD .null)
   | .invalidJson => errCodeOf r = some "INVALID_JSON" ∧ idValOf r = none
   | .nonObject _ => errCodeOf r = some "INTERNAL_ERROR" ∧ idValOf r = none)

/-! ## Lemmas: cache-key determinism (C1) -/

/-- The key preorder `sort_keys=True` sorts by. -/
def fieldLe (a b : String × Json) : Prop := a.1 ≤ b.1

instance : DecidableRel fieldLe := fun a b => inferInstanceAs (Decidable (a.1 ≤ b.1))

instance : IsTotal (String × Json) fieldLe := ⟨fun a b => le_total a.1 b.1⟩

instance : IsTrans (String × Json) fieldLe := ⟨fun _ _ _ h1 h2 => le_trans h1 h2⟩

/-- The strict key order; antisymmetric (vacuously, being asymmetric),
which is what pins down the sorted order of a duplicate-free field
list. -/
def fieldLt (a b : String × Json) : Prop := a.1 < b.1

instance : IsAntisymm (String × Json) fieldLt :=
  ⟨fun _ _ h1 h2 => absurd (lt_trans h1 h2) (lt_irrefl _)⟩

lemma sorted_fieldLt_of_sorted_fieldLe {l : List (String × Json)}
    (hs : List.Sorted fieldLe l) (hnd : (l.map Prod.fst).Nodup) :
    List.Sorted fieldLt l := by
  have hne : List.Pairwise (fun a b : String × Json => a.1 ≠ b.1) l :=
    List.pairwise_map.mp hnd
  exact (hs.and hne).imp (fun h => lt_of_le_of_ne h.1 h.2)

/-- Two permuted field lists with duplicate-free keys sort to the
same list. -/
lemma sortFields_eq_of_perm {p1 p2 : List (String × Json)}
    (hperm : p1.Perm p2) (hnd : (p1.map Prod.fst).Nodup) :
    sortFields p1 = sortFields p2 := by
  have hnd2 : (p2.map Prod.fst).Nodup := ((hperm.map Prod.fst).nodup_iff).mp hnd
  have hp : (sortFields p1).Perm (sortFields p2) :=
    ((List.perm_insertionSort _ p1).trans hperm).trans
      (List.perm_insertionSort _ p2).symm
  have hs1 : List.Sorted fieldLt (sortFields p1) :=
    sorted_fieldLt_of_sorted_fieldLe (List.sorted_insertionSort _ p1)
      (((List.perm_insertionSort _ p1).map Prod.fst).nodup_iff.mpr hnd)
  have hs2 : List.Sorted fieldLt (sortFields p2) :=
    sorted_fieldLt_of_sorted_fieldLe (List.sorted_insertionSort _ p2)
      (((List.perm_insertionSort _ p2).map Prod.fst).nodup_iff.mpr hnd2)
  exact List.eq_of_perm_of_sorted hp hs1 hs2

/-- C1: the cache key of a tool call is a function of the tool name
and the parameter mapping's key/value set, independent of the
insertion order of the parameters. -/
theorem cache_key_deterministic (tool_name : String)
    (p1 p2 : List (String × Json)) (hperm : p1.Perm p2)
    (hnd : (p1.map Prod.fst).Nodup) :
    generate_cache_key tool_name p1 = generate_cache_key tool_name p2 := by
  have h := sortFields_eq_of_perm hperm hnd
  simp only [generate_cache_key, dumps]
  rw [h]

/-- C1 witness: `key(name, {a:1, b:2}) = key(name, {b:2, a:1})`. -/
theorem cache_key_deterministic_witness :
    ([(("a" : String), Json.num 1), ("b", Json.num 2)]).Perm
        [("b", Json.num 2), ("a", Json.num 1)] ∧
      ([(("a" : String), Json.num 1), ("b", Json.num 2)].map Prod.fst).Nodup ∧
      generate_cache_key "calc_technical_indicators"
          [("a", Json.num 1), ("b", Json.num 2)] =
        generate_cache_key "calc_technical_indicators"
          [("b", Json.num 2), ("a", Json.num 1)] :=
  ⟨List.Perm.swap _ _ _, by decide,
    cache_key_deterministic _ _ _ (List.Perm.swap _ _ _) (by decide)⟩

/-! ## Dispatcher response shape (C2) -/

/-- C2 counterexample: the claim says every failure response is of
the shape `{id, error: {message, code}}` and carries the request's
id, but the response to an unparseable request is an `INVALID_JSON`
error object with no `"id"` field at all. -/
theorem handle_request_invalid_json_has_no_id :
    errCodeOf (handle_request (fun _ _ => .ok .null) .invalidJson) =
        some "INVALID_JSON" ∧
      hasKey (handle_request (fun _ _ => .ok .null) .invalidJson) "id" = false := by
  constructor <;> rfl

/-- C2 amended: `handle_request` answers every request with exactly
one response (it is a total function of the request and the handler
outcome); every response is either a success `{id, result}` or an
error `{message, code}` with a code among `UNKNOWN_TOOL`,
`PROCESSING_ERROR`, `INVALID_JSON`, `INTERNAL_ERROR`.  For a request
that parsed as a JSON object, the success, `UNKNOWN_TOOL` and
`PROCESSING_ERROR` responses carry the request's own id as their
`"id"` value (`null` when the request has none), while the
`INTERNAL_ERROR` response and the responses to unparseable or
non-object requests carry no id at all. -/
theorem handle_request_response_good (run : String → Json → HandlerOutcome)
    (req : ParsedRequest) :
    goodResponse req (handle_request run req) := by
  cases req with
  | invalidJson => exact ⟨⟨by decide, rfl⟩, rfl, rfl⟩
  | nonObject m => exact ⟨⟨by decide, rfl⟩, rfl, rfl⟩
  | object fields =>
      simp only [handle_request, goodResponse]
      cases hname : (dlookup fields "name").getD .null with
      | arr xs => exact ⟨⟨by decide, rfl⟩, rfl⟩
      | obj fs => exact ⟨⟨by decide, rfl⟩, rfl⟩
      | null => exact ⟨⟨by decide, rfl⟩, rfl⟩
      | bool b => cases b <;> exact ⟨⟨by decide, rfl⟩, rfl⟩
      | num n => exact ⟨⟨by decide, rfl⟩, rfl⟩
      | str s =>
          by_cases hmem : s ∈ handlerNames
          · simp only [if_pos hmem]
            cases hrun : run s ((dlookup fields "parameters").getD (.obj [])) with
            | ok v => exact ⟨rfl, rfl⟩
            | exc m => exact ⟨⟨by decide, rfl⟩, rfl⟩
          · simp only [if_neg hmem]
            exact ⟨⟨by decide, rfl⟩, rfl⟩

/-- C2 amended witness: a concrete well-formed request, whose
response carries the request's id `"1"`. -/
theorem handle_request_response_good_witness :
    goodResponse (.object [("id", .str "1"), ("name", .str "get_stock_info")])
      (handle_request (fun _ _ => .ok .null)
        (.object [("id", .str "1"), ("name", .str "get_stock_info")])) :=
  handle_request_response_good (fun _ _ => .ok .null)
    (.object [("id", .str "1"), ("name", .str "get_stock_info")])

/-! ## Cache expiry and delete observability (C3, C8) -/

lemma dlookup_eraseKey {α : Type} (s : List (String × α)) (k : String) :
    dlookup (eraseKey s k) k = none := by
  induction s with
  | nil => rfl
  | cons p rest ih =>
      simp only [eraseKey, List.filter_cons] at ih ⊢
      by_cases h : p.1 = k
      · simpa [h] using ih
      · simpa [h, dlookup] using ih

lemma dlookup_ne_none_of_mem {α : Type} (s : List (String × α))
    (p : String × α) (hp : p ∈ s) : dlookup s p.1 ≠ none := by
  induction s with
  | nil => simp at hp
  | cons q rest ih =>
      rcases List.mem_cons.mp hp with rfl | hmem2
      · simp [dlookup]
      · by_cases hq : q.1 = p.1 <;> simp [dlookup, hq, ih hmem2]

lemma not_mem_expiredKeys_of_dlookup_none {V : Type} (c : DataCache V)
    (k : String) (now : ℚ) (h : dlookup c.store k = none) :
    k ∉ c.expiredKeys now := by
  intro hmem
  simp only [DataCache.expiredKeys, List.mem_map, List.mem_filter] at hmem
  obtain ⟨p, ⟨hp, _⟩, hfst⟩ := hmem
  exact dlookup_ne_none_of_mem c.store p hp (hfst ▸ h)

/-- C3 counterexample: an entry whose `expiresAt` equals the current
time (`expiresAt ≤ now` in the claim's phrasing) is still returned by
`get`: the source tests `time.time() > expiry_time` strictly.  The
entry `"k"` is stored at time 0 with TTL 10, so `expiresAt = 10`, and
`get` at time 10 returns the value. -/
theorem cache_get_at_exact_expiry :
    ((DataCache.set (DataCache.empty ℤ) "k" 7 (some 10) 0).get "k" 10).1 = some 7 ∧
      (dlookup (DataCache.set (DataCache.empty ℤ) "k" 7 (some 10) 0).store "k").map
          CacheEntry.expiry = some 10 ∧
      (10 : ℚ) ≤ 10 := by
  refine ⟨?_, ?_, le_refl _⟩ <;>
    norm_num [DataCache.set, DataCache.empty, DataCache.get, dlookup, upsert]

/-- C3 amended: lazy expiry holds for entries whose `expiresAt` is
nonzero (every entry `set` writes at a positive clock has one) and
**strictly** earlier than the current time: `get` then reports absent,
removes the entry, and a subsequent `cleanup` finds it already gone.
At `expiresAt = now` exactly, the entry is still served (see the
counterexample). -/
theorem cache_get_expired_purges {V : Type} (c : DataCache V) (k : String)
    (now : ℚ) (e : CacheEntry V) (he : dlookup c.store k = some e)
    (h0 : e.expiry ≠ 0) (hlt : e.expiry < now) :
    (c.get k now).1 = none ∧
      dlookup (c.get k now).2.store k = none ∧
      k ∉ (c.get k now).2.expiredKeys now := by
  have hcond : e.expiry ≠ 0 ∧ now > e.expiry := ⟨h0, hlt⟩
  have heq : c.get k now = (none, { c with store := eraseKey c.store k }) := by
    simp only [DataCache.get, he, if_pos hcond]
  rw [heq]
  exact ⟨rfl, dlookup_eraseKey _ _,
    not_mem_expiredKeys_of_dlookup_none _ _ _ (dlookup_eraseKey _ _)⟩

/-- C3 amended witness: entry stored at time 0 with TTL 10, read at
time 11. -/
theorem cache_get_expired_purges_witness :
    dlookup (DataCache.set (DataCache.empty ℤ) "k" 7 (some 10) 0).store "k" =
        some ⟨7, 10⟩ ∧
      (10 : ℚ) ≠ 0 ∧ (10 : ℚ) < 11 ∧
      (((DataCache.set (DataCache.empty ℤ) "k" 7 (some 10) 0).get "k" 11).1 = none ∧
        dlookup ((DataCache.set (DataCache.empty ℤ) "k" 7 (some 10) 0).get "k" 11).2.store
            "k" = none ∧
        "k" ∉ ((DataCache.set (DataCache.empty ℤ) "k" 7 (some 10) 0).get "k" 11).2.expiredKeys
            11) := by
  have he : dlookup (DataCache.set (DataCache.empty ℤ) "k" 7 (some 10) 0).store "k" =
      some ⟨7, 10⟩ := by
    norm_num [DataCache.set, DataCache.empty, dlookup, upsert]
  exact ⟨he, by norm_num, by norm_num,
    cache_get_expired_purges _ _ _ _ he (by norm_num) (by norm_num)⟩

/-- C8 counterexample: `delete` never consults the clock, so deleting
an entry whose `expiresAt` (10) has long passed (now = 20) still
returns `True` — the claim says it must return `False` when no live
entry exists. -/
theorem cache_delete_expired_returns_true :
    ((DataCache.set (DataCache.empty ℤ) "k" 7 (some 10) 0).delete "k").1 = true ∧
      (dlookup (DataCache.set (DataCache.empty ℤ) "k" 7 (some 10) 0).store "k").map
          CacheEntry.expiry = some 10 ∧
      (10 : ℚ) < 20 := by
  refine ⟨?_, ?_, by norm_num⟩ <;>
    norm_num [DataCache.set, DataCache.empty, DataCache.delete, dlookup, upsert]

/-- C8 amended: `delete(key)` returns `True` iff an entry for the key
is physically present in the store — live **or** expired — and in
either case the key is absent afterwards. -/
theorem cache_delete_iff_present {V : Type} (c : DataCache V) (k : String) :
    ((c.delete k).1 = true ↔ (dlookup c.store k).isSome) ∧
      dlookup (c.delete k).2.store k = none := by
  cases h : dlookup c.store k with
  | none => simp [DataCache.delete, h]
  | some e => simp [DataCache.delete, h, dlookup_eraseKey]

/-- C8 amended witness: the delete observability contract at a
concrete cache. -/
theorem cache_delete_iff_present_witness :
    (((DataCache.set (DataCache.empty ℤ) "k" 7 (some 10) 0).delete "k").1 = true ↔
        (dlookup (DataCache.set (DataCache.empty ℤ) "k" 7 (some 10) 0).store
          "k").isSome) ∧
      dlookup ((DataCache.set (DataCache.empty ℤ) "k" 7 (some 10) 0).delete
        "k").2.store "k" = none :=
  cache_delete_iff_present (DataCache.set (DataCache.empty ℤ) "k" 7 (some 10) 0) "k"

/-! ## Column-resolution failure (C4) -/

lemma length_filterMap_congr {α β γ : Type} (l : List α) (f : α → Option β)
    (g : α → Option γ) (h : ∀ a ∈ l, (f a).isSome = (g a).isSome) :
    (l.filterMap f).length = (l.filterMap g).length := by
  induction l with
  | nil => rfl
  | cons x xs ih =>
      have hx := h x (List.mem_cons_self _ _)
      have hxs := ih (fun a ha => h a (List.mem_cons_of_mem _ ha))
      cases hf : f x <;> cases hg : g x <;>
        simp [hf, hg, List.filterMap_cons, hxs] at hx ⊢

lemma find?_isSome_eq_any {α : Type} (l : List α) (q : α → Bool) :
    (l.find? q).isSome = l.any q := by
  induction l with
  | nil => rfl
  | cons x xs ih => by_cases h : q x <;> simp [List.find?_cons, h, ih]

/-- The size of the `column_mapping` dict is the number of canonical
concepts (among all five, volume included) that resolve. -/
lemma column_mapping_length (df : DataFrame) :
    (column_mapping df).length = (resolvedConcepts df).length := by
  refine length_filterMap_congr _ _ _ (fun p _ => ?_)
  by_cases h : p.2.any df.hasCol <;>
    simp [h, Option.isSome_map, find?_isSome_eq_any]

/-- C4 counterexample: a DataFrame offering `open`, `high`, `low` and
`volume` — only 3 of the four price concepts `{open, high, low,
close}` — still passes column resolution (the source counts the
resolved concepts of all five, volume included: `len(column_mapping)
< 4`), so no top-level error is returned, contradicting the claim
that the call must fail whenever fewer than 4 of
`{open, high, low, close}` resolve. -/
theorem column_check_counts_volume :
    ohlcResolvedCount ⟨[("open", [1]), ("high", [1]), ("low", [1]),
        ("volume", [1])]⟩ = 3 ∧
      (process_indicators (fun q => q)
          ⟨[("open", [1]), ("high", [1]), ("low", [1]), ("volume", [1])]⟩
          ["MA"]).topError = none := by
  constructor
  · rfl
  · rfl

/-- C4 amended: `process_indicators` fails with the single top-level
error — computing no indicator — exactly when fewer than 4 of the
**five** concepts `{open, high, low, close, volume}` resolve through
the alias table. -/
theorem process_indicators_top_error_iff (sqrtO : ℚ → ℚ) (df : DataFrame)
    (inds : List String) :
    ((process_indicators sqrtO df inds).topError.isSome ↔
        (resolvedConcepts df).length < 4) ∧
      ((resolvedConcepts df).length < 4 →
        (process_indicators sqrtO df inds).indicators = []) := by
  have hlen := column_mapping_length df
  unfold process_indicators
  split <;> rename_i h <;> simp_all

/-- C4 amended witness: with only 3 of the 5 concepts present the
call fails with the top-level error and computes nothing. -/
theorem process_indicators_top_error_iff_witness :
    ((process_indicators (fun q => q)
          ⟨[("open", [1]), ("high", [1]), ("low", [1])]⟩ ["MA"]).topError.isSome ↔
        (resolvedConcepts ⟨[("open", [1]), ("high", [1]), ("low", [1])]⟩).length < 4) ∧
      ((resolvedConcepts ⟨[("open", [1]), ("high", [1]), ("low", [1])]⟩).length < 4 →
        (process_indicators (fun q => q)
          ⟨[("open", [1]), ("high", [1]), ("low", [1])]⟩ ["MA"]).indicators = []) :=
  process_indicators_top_error_iff _ _ _

/-! ## Unsupported indicators are skipped silently (C9) -/

lemma indCompute_eq_none (sqrtO : ℚ → ℚ) (df : DataFrame) (u : String)
    (h : u ∉ supportedIndicators) : indCompute sqrtO df u = none := by
  unfold indCompute
  simp only [supportedIndicators, List.mem_cons, List.not_mem_nil, or_false,
    not_or] at h
  obtain ⟨h1, h2, h3, h4, h5, h6, h7, h8⟩ := h
  simp [h1, h2, h3, h4, h5, h6, h7, h8]

/-- C9: an indicator name whose uppercasing is not among the eight
supported names matches no branch of the `elif` chain: the result of
`process_indicators` is exactly the result without that name — no
entry and no error for it, and every other requested indicator
computed as before. -/
theorem unknown_indicator_skipped (sqrtO : ℚ → ℚ) (df : DataFrame)
    (l1 l2 : List String) (unk : String)
    (h : pyUpper unk ∉ supportedIndicators) :
    process_indicators sqrtO df (l1 ++ unk :: l2) =
      process_indicators sqrtO df (l1 ++ l2) := by
  have hrun : runIndicator sqrtO df unk = none := by
    simp [runIndicator, indCompute_eq_none sqrtO df _ h]
  unfold process_indicators
  split
  · rfl
  · congr 1
    rw [List.foldl_append, List.foldl_append, List.foldl_cons, hrun]

/-- C9 witness: `"FOO"` is ignored and `MA` is still computed. -/
theorem unknown_indicator_skipped_witness :
    pyUpper "FOO" ∉ supportedIndicators ∧
      process_indicators (fun q => q)
          ⟨[("open", [1]), ("high", [1]), ("low", [1]), ("close", [1])]⟩
          ["MA", "FOO"] =
        process_indicators (fun q => q)
          ⟨[("open", [1]), ("high", [1]), ("low", [1]), ("close", [1])]⟩
          ["MA"] :=
  ⟨by decide, unknown_indicator_skipped _ _ ["MA"] [] "FOO" (by decide)⟩

/-! ## Per-indicator error isolation (C5)

The `for indicator in indicators` loop writes each indicator's
outcome into `result["indicators"]` independently.  Two loop
iterations can only write the same dict key when they compute the
same indicator on the same DataFrame, in which case they write the
same value, so every requested indicator's entry is exactly its own
outcome, whatever happened to its siblings. -/

lemma dlookup_upsert_self {α : Type} (m : List (String × α)) (k : String)
    (v : α) : dlookup (upsert m k v) k = some v := by
  induction m with
  | nil => simp [upsert, dlookup]
  | cons p rest ih =>
      by_cases h : p.1 = k <;> simp [upsert, h, dlookup, ih]

lemma dlookup_upsert_other {α : Type} (m : List (String × α)) (k k' : String)
    (v : α) (h : k ≠ k') : dlookup (upsert m k v) k' = dlookup m k' := by
  induction m with
  | nil => simp [upsert, dlookup, h]
  | cons p rest ih =>
      by_cases hp : p.1 = k
      · simp [upsert, hp, dlookup, h]
      · simp [upsert, hp, dlookup, ih]

lemma indCompute_mem_of_some (sqrtO : ℚ → ℚ) (df : DataFrame) (u : String)
    (r : Except String IndVal) (h : indCompute sqrtO df u = some r) :
    u ∈ supportedIndicators := by
  by_contra hu
  rw [indCompute_eq_none sqrtO df u hu] at h
  cases h

lemma pyUpper_supported : ∀ u ∈ supportedIndicators, pyUpper u = u := by decide

/-- Two loop iterations that write the same key write the same value. -/
lemma runIndicator_consistent (sqrtO : ℚ → ℚ) (df : DataFrame)
    (i j : String) (k : String) (vi vj : IndVal)
    (hi : runIndicator sqrtO df i = some (k, vi))
    (hj : runIndicator sqrtO df j = some (k, vj)) : vi = vj := by
  unfold runIndicator at hi hj
  cases hci : indCompute sqrtO df (pyUpper i) with
  | none => rw [hci] at hi; cases hi
  | some ri =>
    cases hcj : indCompute sqrtO df (pyUpper j) with
    | none => rw [hcj] at hj; cases hj
    | some rj =>
      rw [hci] at hi
      rw [hcj] at hj
      cases ri with
      | ok v =>
          cases rj with
          | ok w =>
              obtain ⟨hk1, hv1⟩ : pyUpper i = k ∧ v = vi := by
                simpa using hi
              obtain ⟨hk2, hv2⟩ : pyUpper j = k ∧ w = vj := by
                simpa using hj
              rw [hk1, ← hk2] at hci
              rw [hci] at hcj
              obtain rfl : v = w := by simpa using hcj
              rw [← hv1, ← hv2]
          | error e =>
              -- `i` succeeded under key `pyUpper i`; `j` failed under key `j`,
              -- so `j = pyUpper i` is a canonical name, fixed by `pyUpper`.
              obtain ⟨hk1, _⟩ : pyUpper i = k ∧ v = vi := by simpa using hi
              obtain ⟨hk2, _⟩ : j = k ∧ IndVal.errObj e = vj := by simpa using hj
              have hsupp : pyUpper i ∈ supportedIndicators :=
                indCompute_mem_of_some _ _ _ _ hci
              have : pyUpper j = pyUpper i := by
                rw [hk2, ← hk1]
                exact pyUpper_supported _ hsupp
              rw [this, hci] at hcj
              cases hcj
      | error e =>
          cases rj with
          | ok w =>
              obtain ⟨hk1, _⟩ : i = k ∧ IndVal.errObj e = vi := by simpa using hi
              obtain ⟨hk2, _⟩ : pyUpper j = k ∧ w = vj := by simpa using hj
              have hsupp : pyUpper j ∈ supportedIndicators :=
                indCompute_mem_of_some _ _ _ _ hcj
              have : pyUpper i = pyUpper j := by
                rw [hk1, ← hk2]
                exact pyUpper_supported _ hsupp
              rw [this, hcj] at hci
              cases hci
          | error e2 =>
              obtain ⟨hk1, hv1⟩ : i = k ∧ IndVal.errObj e = vi := by simpa using hi
              obtain ⟨hk2, hv2⟩ : j = k ∧ IndVal.errObj e2 = vj := by simpa using hj
              rw [hk1, ← hk2] at hci
              rw [hci] at hcj
              obtain rfl : e = e2 := by simpa using hcj
              rw [← hv1, ← hv2]

/-- The loop's dict after folding: any element's entry is its own
outcome, provided all writers of that key agree (which
`runIndicator_consistent` supplies). -/
lemma foldl_upsert_lookup (sqrtO : ℚ → ℚ) (df : DataFrame)
    (inds : List String) (k : String) (v : IndVal)
    (init : List (String × IndVal))
    (hbase : dlookup init k = some v ∨
      ∃ a ∈ inds, runIndicator sqrtO df a = some (k, v))
    (hcons : ∀ j ∈ inds, ∀ v', runIndicator sqrtO df j = some (k, v') → v' = v) :
    dlookup (inds.foldl (fun acc ind =>
      match runIndicator sqrtO df ind with
      | none => acc
      | some (k', v') => upsert acc k' v') init) k = some v := by
  induction inds generalizing init with
  | nil =>
      rcases hbase with h | ⟨a, ha, _⟩
      · exact h
      · simp at ha
  | cons hd tl ih =>
      rw [List.foldl_cons]
      cases hr : runIndicator sqrtO df hd with
      | none =>
          refine ih init ?_ (fun j hj => hcons j (List.mem_cons_of_mem _ hj))
          rcases hbase with h | ⟨a, ha, hra⟩
          · exact Or.inl h
          · rcases List.mem_cons.mp ha with rfl | hmem
            · rw [hr] at hra; cases hra
            · exact Or.inr ⟨a, hmem, hra⟩
      | some p =>
          obtain ⟨k', v'⟩ := p
          refine ih (upsert init k' v') ?_
            (fun j hj => hcons j (List.mem_cons_of_mem _ hj))
          by_cases hk : k' = k
          · subst hk
            have hv : v' = v := hcons hd (List.mem_cons_self _ _) v' hr
            subst hv
            exact Or.inl (dlookup_upsert_self _ _ _)
          · rcases hbase with h | ⟨a, ha, hra⟩
            · exact Or.inl (by rw [dlookup_upsert_other _ _ _ _ hk]; exact h)
            · rcases List.mem_cons.mp ha with rfl | hmem
              · rw [hr] at hra
                obtain ⟨rfl, -⟩ : k' = k ∧ v' = v := by simpa using hra
                exact absurd rfl hk
              · exact Or.inr ⟨a, hmem, hra⟩

/-- C5: on a DataFrame that passes column resolution, every requested
indicator's entry in the result's `indicators` mapping is exactly its
own outcome — a failing indicator (an exception, keyed by the raw
request string, or OBV without a volume column, keyed `"OBV"`)
contributes an `{"error": ...}` note under its own key, and every
sibling indicator's entry is its own computed value, unaffected. -/
theorem indicator_isolation (sqrtO : ℚ → ℚ) (df : DataFrame)
    (inds : List String) (ind k : String) (v : IndVal)
    (hres : 4 ≤ (column_mapping df).length) (hmem : ind ∈ inds)
    (hrun : runIndicator sqrtO df ind = some (k, v)) :
    dlookup (process_indicators sqrtO df inds).indicators k = some v := by
  unfold process_indicators
  rw [if_neg (by omega)]
  exact foldl_upsert_lookup sqrtO df inds k v [] (Or.inr ⟨ind, hmem, hrun⟩)
    (fun j hj v' hrj => runIndicator_consistent sqrtO df j ind k v' v hrj hrun)

/-- C5 witness: on a DataFrame with OHLC but no volume, requesting
`["OBV", "MA"]` yields an error note scoped to `OBV` while `MA` is
still computed (a one-row frame: every window is unfilled, so each MA
series is a single NaN). -/
theorem indicator_isolation_witness :
    runIndicator (fun q => q)
        ⟨[("open", [1]), ("high", [1]), ("low", [1]), ("close", [1])]⟩ "OBV" =
      some ("OBV", IndVal.errObj "Volume data not available") ∧
    dlookup (process_indicators (fun q => q)
        ⟨[("open", [1]), ("high", [1]), ("low", [1]), ("close", [1])]⟩
        ["OBV", "MA"]).indicators "OBV" =
      some (IndVal.errObj "Volume data not available") ∧
    dlookup (process_indicators (fun q => q)
        ⟨[("open", [1]), ("high", [1]), ("low", [1]), ("close", [1])]⟩
        ["OBV", "MA"]).indicators "MA" =
      some (IndVal.table [("MA5", [.nan]), ("MA10", [.nan]),
        ("MA20", [.nan]), ("MA60", [.nan])]) :=
  ⟨by decide,
    indicator_isolation _ _ _ "OBV" _ _ (by decide) (by decide) (by decide),
    indicator_isolation _ _ _ "MA" _ _ (by decide) (by decide) (by decide)⟩

/-! ## Zero-denominator policy in the fundamental engine (C6) -/

lemma round2_zero : round2 0 = 0 := by
  norm_num [round2, halfEvenRound]

/-- C6: every ratio whose denominator is zero or absent (absent keys
default to 0 through `data.get(key, 0)`, so "zero or absent" is
`pyGetD _ key = 0`) evaluates to 0 and is present in the ratio dict:
the liquidity ratios when current liabilities vanish, the debt ratio
when total assets vanish, debt-to-equity when equity vanishes,
interest coverage when the interest expense and its finance-expense
fallback vanish, and the three margins when both revenue labels
vanish.  No exception is possible on numeric inputs and no ratio is
dropped. -/
theorem zero_denominator_yields_zero (b i : String → Option ℚ) :
    (pyGetD b "流动负债合计" = 0 →
      dlookup (calculate_liquidity_ratios b) "current_ratio" = some 0 ∧
      dlookup (calculate_liquidity_ratios b) "quick_ratio" = some 0 ∧
      dlookup (calculate_liquidity_ratios b) "cash_ratio" = some 0) ∧
    (pyGetD b "资产总计" = 0 →
      dlookup (calculate_solvency_ratios b i) "debt_ratio" = some 0) ∧
    (pyGetD b "所有者权益合计" = 0 →
      dlookup (calculate_solvency_ratios b i) "debt_to_equity" = some 0) ∧
    (pyGetD i "利息支出" = 0 → pyGetD i "财务费用" = 0 →
      dlookup (calculate_solvency_ratios b i) "interest_coverage" = some 0) ∧
    (pyGetD i "营业总收入" = 0 → pyGetD i "营业收入" = 0 →
      dlookup (calculate_profitability_ratios i) "gross_margin" = some 0 ∧
      dlookup (calculate_profitability_ratios i) "operating_margin" = some 0 ∧
      dlookup (calculate_profitability_ratios i) "net_margin" = some 0) := by
  refine ⟨fun h => ?_, fun h => ?_, fun h => ?_, fun h1 h2 => ?_, fun h1 h2 => ?_⟩
  · simp [calculate_liquidity_ratios, h, dlookup, round2_zero]
  · simp [calculate_solvency_ratios, h, dlookup, round2_zero]
  · simp [calculate_solvency_ratios, h, dlookup, round2_zero]
  · simp [calculate_solvency_ratios, h1, h2, pyOr, dlookup, round2_zero]
  · simp [calculate_profitability_ratios, h1, h2, pyOr, dlookup, round2_zero]

/-- C6 witness: on empty statement data every listed ratio is present
and equal to 0. -/
theorem zero_denominator_yields_zero_witness :
    (dlookup (calculate_liquidity_ratios (fun _ => none)) "current_ratio" = some 0 ∧
      dlookup (calculate_liquidity_ratios (fun _ => none)) "quick_ratio" = some 0 ∧
      dlookup (calculate_liquidity_ratios (fun _ => none)) "cash_ratio" = some 0) ∧
    dlookup (calculate_solvency_ratios (fun _ => none) (fun _ => none))
        "debt_ratio" = some 0 ∧
    dlookup (calculate_solvency_ratios (fun _ => none) (fun _ => none))
        "debt_to_equity" = some 0 ∧
    dlookup (calculate_solvency_ratios (fun _ => none) (fun _ => none))
        "interest_coverage" = some 0 ∧
    (dlookup (calculate_profitability_ratios (fun _ => none)) "gross_margin" = some 0 ∧
      dlookup (calculate_profitability_ratios (fun _ => none)) "operating_margin" = some 0 ∧
      dlookup (calculate_profitability_ratios (fun _ => none)) "net_margin" = some 0) := by
  obtain ⟨c1, c2, c3, c4, c5⟩ :=
    zero_denominator_yields_zero (fun _ => none) (fun _ => none)
  exact ⟨c1 rfl, c2 rfl, c3 rfl, c4 rfl rfl, c5 rfl rfl⟩

/-! ## RSI totality on a zero average loss (C7)

Every operation of the RSI branch is total on the float domain: the
division `avg_gain / avg_loss` with a zero denominator produces `inf`
(or `nan` for `0/0`) exactly as numpy does, never an exception.  The
lemmas below chase the value the branch surfaces at a full window
when no close-to-close delta is negative. -/

lemma get?_zipWith_of_eq {α β γ : Type} {f : α → β → γ} {as : List α}
    {bs : List β} {i : ℕ} {a : α} {b : β} (ha : as.get? i = some a)
    (hb : bs.get? i = some b) : (List.zipWith f as bs).get? i = some (f a b) := by
  induction as generalizing bs i with
  | nil => cases ha
  | cons x xs ih =>
      cases bs with
      | nil => cases hb
      | cons y ys =>
          cases i with
          | zero =>
              obtain rfl : x = a := by simpa using ha
              obtain rfl : y = b := by simpa using hb
              rfl
          | succ n =>
              simpa using ih (by simpa using ha) (by simpa using hb)

lemma mem_zipWith {α β γ : Type} {f : α → β → γ} {as : List α} {bs : List β}
    {x : γ} (hx : x ∈ List.zipWith f as bs) :
    ∃ a b, a ∈ as ∧ b ∈ bs ∧ x = f a b := by
  induction as generalizing bs with
  | nil => simp at hx
  | cons a as ih =>
      cases bs with
      | nil => simp at hx
      | cons b bs =>
          rcases List.mem_cons.mp hx with rfl | hmem
          · exact ⟨a, b, List.mem_cons_self _ _, List.mem_cons_self _ _, rfl⟩
          · obtain ⟨a', b', ha, hb, rfl⟩ := ih hmem
            exact ⟨a', b', List.mem_cons_of_mem _ ha, List.mem_cons_of_mem _ hb, rfl⟩

lemma diffQ_length (xs : List ℚ) : (diffQ xs).length = xs.length := by
  cases xs <;> simp [diffQ]

lemma rollingMean_length (w : ℕ) (xs : List PyFloat) :
    (rollingMean w xs).length = xs.length := by
  simp [rollingMean]

lemma rollingMean_get? (w : ℕ) (xs : List PyFloat) (i : ℕ)
    (hi : i < xs.length) :
    (rollingMean w xs).get? i = some (if i + 1 < w then .nan
      else if (window w xs i).any PyFloat.isNan then .nan
      else ((window w xs i).foldl PyFloat.add (.fin 0)).div (.fin (w : ℚ))) := by
  unfold rollingMean
  rw [List.get?_map, List.get?_range hi]
  rfl

lemma mem_of_mem_window {w : ℕ} {xs : List PyFloat} {i : ℕ} {x : PyFloat}
    (hx : x ∈ window w xs i) : x ∈ xs :=
  List.mem_of_mem_take (List.mem_of_mem_drop hx)

lemma any_isNan_false {l : List PyFloat}
    (h : ∀ x ∈ l, ∃ q : ℚ, x = .fin q) : l.any PyFloat.isNan = false := by
  rw [List.any_eq_false]
  intro x hx
  obtain ⟨q, rfl⟩ := h x hx
  simp [PyFloat.isNan]

lemma foldl_add_fin_nonneg (l : List PyFloat)
    (h : ∀ x ∈ l, ∃ q : ℚ, 0 ≤ q ∧ x = .fin q) :
    ∀ a : ℚ, ∃ s : ℚ, a ≤ s ∧ l.foldl PyFloat.add (.fin a) = .fin s := by
  induction l with
  | nil => exact fun a => ⟨a, le_refl a, rfl⟩
  | cons x xs ih =>
      intro a
      obtain ⟨q, hq, rfl⟩ := h x (List.mem_cons_self _ _)
      obtain ⟨s, hs, heq⟩ := ih (fun y hy => h y (List.mem_cons_of_mem _ hy)) (a + q)
      exact ⟨s, le_trans (by linarith) hs, by simpa [PyFloat.add] using heq⟩

lemma foldl_add_all_zero (l : List PyFloat) (h : ∀ x ∈ l, x = .fin 0) :
    ∀ a : ℚ, l.foldl PyFloat.add (.fin a) = .fin a := by
  induction l with
  | nil => exact fun _ => rfl
  | cons x xs ih =>
      intro a
      have hx := h x (List.mem_cons_self _ _)
      subst hx
      have := ih (fun y hy => h y (List.mem_cons_of_mem _ hy)) (a + 0)
      simpa [PyFloat.add] using this

/-- Elements of `delta = close.diff()` are NaN or finite. -/
lemma diffQ_elem (xs : List ℚ) :
    ∀ d ∈ diffQ xs, d = .nan ∨ ∃ q : ℚ, d = .fin q := by
  intro d hd
  cases xs with
  | nil => simp [diffQ] at hd
  | cons c rest =>
      rcases List.mem_cons.mp hd with rfl | hmem
      · exact Or.inl rfl
      · obtain ⟨a, b, _, _, rfl⟩ := mem_zipWith hmem
        exact Or.inr ⟨a - b, rfl⟩

/-- Gains are always finite and non-negative (the leading NaN maps to
0 under `where(delta > 0, 0)`). -/
lemma rsiGain_elem (close : List ℚ) :
    ∀ x ∈ rsiGain close, ∃ q : ℚ, 0 ≤ q ∧ x = .fin q := by
  intro x hx
  simp only [rsiGain, List.mem_map] at hx
  obtain ⟨d, hd, rfl⟩ := hx
  rcases diffQ_elem close d hd with rfl | ⟨q, rfl⟩
  · exact ⟨0, le_refl 0, by simp [PyFloat.gtZero]⟩
  · by_cases hq : q > 0
    · exact ⟨q, le_of_lt hq, by simp [PyFloat.gtZero, hq]⟩
    · exact ⟨0, le_refl 0, by simp [PyFloat.gtZero, hq]⟩

/-- Adjacent-difference values are non-negative on a monotone series. -/
lemma diffQ_nonneg_of_monotone (xs : List ℚ)
    (hmono : List.Chain' (· ≤ ·) xs) :
    ∀ d ∈ diffQ xs, d = .nan ∨ ∃ q : ℚ, 0 ≤ q ∧ d = .fin q := by
  intro d hd
  cases xs with
  | nil => simp [diffQ] at hd
  | cons c rest =>
      rcases List.mem_cons.mp hd with rfl | hmem
      · exact Or.inl rfl
      · right
        clear hd
        induction rest generalizing c with
        | nil => simp at hmem
        | cons r rs ih =>
            have hcr : c ≤ r := (List.chain'_cons.mp hmono).1
            have htl : List.Chain' (· ≤ ·) (r :: rs) :=
              (List.chain'_cons.mp hmono).2
            rcases List.mem_cons.mp hmem with rfl | hmem2
            · exact ⟨r - c, by linarith, rfl⟩
            · exact ih r htl hmem2

/-- When no delta is negative every loss is exactly 0. -/
lemma rsiLoss_all_zero (close : List ℚ)
    (hmono : List.Chain' (· ≤ ·) close) :
    ∀ x ∈ rsiLoss close, x = .fin 0 := by
  intro x hx
  simp only [rsiLoss, List.map_map, List.mem_map, Function.comp] at hx
  obtain ⟨d, hd, rfl⟩ := hx
  rcases diffQ_nonneg_of_monotone close hmono d hd with rfl | ⟨q, hq, rfl⟩
  · simp [PyFloat.ltZero, PyFloat.neg]
  · have hnot : ¬ q < 0 := not_lt.mpr hq
    simp [PyFloat.ltZero, hnot, PyFloat.neg]

lemma rsiGain_length (close : List ℚ) :
    (rsiGain close).length = close.length := by
  simp [rsiGain, diffQ_length]

lemma rsiLoss_length (close : List ℚ) :
    (rsiLoss close).length = close.length := by
  simp [rsiLoss, diffQ_length]

/-- C7: on a close series whose deltas are all non-negative (so the
14-row average loss is 0), the RSI branch — which is total, the
zero-denominator division following numpy's float semantics instead
of raising — surfaces at every full window (`i ≥ 13`) either the
maximal sentinel 100 (some gain in the window: `RS = +inf`) or the
non-finite `nan` (`0/0`, a fully flat window): never an error. -/
theorem rsi_zero_loss_sentinel (close : List ℚ)
    (hmono : List.Chain' (· ≤ ·) close) (i : ℕ) (h13 : 13 ≤ i)
    (hi : i < close.length) :
    (rsiSeries close).get? i = some (.fin 100) ∨
      (rsiSeries close).get? i = some .nan := by
  have higain : i < (rsiGain close).length := by rw [rsiGain_length]; exact hi
  have hiloss : i < (rsiLoss close).length := by rw [rsiLoss_length]; exact hi
  have hnotlt : ¬ i + 1 < 14 := by omega
  -- the average gain at a full window: a finite non-negative value
  have hwin_gain : ∀ x ∈ window 14 (rsiGain close) i, ∃ q : ℚ, 0 ≤ q ∧ x = .fin q :=
    fun x hx => rsiGain_elem close x (mem_of_mem_window hx)
  obtain ⟨s, hs, hfold⟩ := foldl_add_fin_nonneg _ hwin_gain 0
  have hgain : (rollingMean 14 (rsiGain close)).get? i = some (.fin (s / 14)) := by
    rw [rollingMean_get? _ _ _ higain, if_neg hnotlt,
      any_isNan_false (fun x hx => by
        obtain ⟨q, -, he⟩ := hwin_gain x hx
        exact ⟨q, he⟩), if_neg (by simp)]
    rw [hfold]
    norm_num [PyFloat.div]
  -- the average loss at a full window: exactly 0
  have hwin_loss : ∀ x ∈ window 14 (rsiLoss close) i, x = .fin 0 :=
    fun x hx => rsiLoss_all_zero close hmono x (mem_of_mem_window hx)
  have hloss : (rollingMean 14 (rsiLoss close)).get? i = some (.fin 0) := by
    rw [rollingMean_get? _ _ _ hiloss, if_neg hnotlt,
      any_isNan_false (fun x hx => ⟨0, hwin_loss x hx⟩), if_neg (by simp)]
    rw [foldl_add_all_zero _ hwin_loss 0]
    norm_num [PyFloat.div]
  -- RS = avg gain / 0
  have hrs : (List.zipWith PyFloat.div (rollingMean 14 (rsiGain close))
      (rollingMean 14 (rsiLoss close))).get? i =
      some (PyFloat.div (.fin (s / 14)) (.fin 0)) :=
    get?_zipWith_of_eq hgain hloss
  rcases lt_or_eq_of_le (div_nonneg hs (by norm_num : (0:ℚ) ≤ 14)) with hpos | hzero
  · -- some gain: RS = inf, RSI = 100
    left
    have hinf : PyFloat.div (.fin (s / 14)) (.fin 0) = .inf := by
      simp [PyFloat.div, hpos]
    simp only [rsiSeries]
    rw [List.get?_map, hrs, hinf]
    norm_num [PyFloat.add, PyFloat.div, PyFloat.sub, PyFloat.neg]
  · -- no gain at all: RS = 0/0 = nan, RSI = nan
    right
    have hnan : PyFloat.div (.fin (s / 14)) (.fin 0) = .nan := by
      simp [PyFloat.div, ← hzero]
    simp only [rsiSeries]
    rw [List.get?_map, hrs, hnan]
    simp [PyFloat.add, PyFloat.div, PyFloat.sub, PyFloat.neg]

/-- C7 witness: the strictly increasing closes 0..14 give RSI 100 at
the first full window. -/
theorem rsi_zero_loss_sentinel_witness :
    List.Chain' (· ≤ ·)
        [(0:ℚ), 1, 2, 3, 4, 5, 6, 7, 8, 9, 10, 11, 12, 13, 14] ∧
      13 ≤ 13 ∧
      13 < ([(0:ℚ), 1, 2, 3, 4, 5, 6, 7, 8, 9, 10, 11, 12, 13, 14]).length ∧
      ((rsiSeries [(0:ℚ), 1, 2, 3, 4, 5, 6, 7, 8, 9, 10, 11, 12, 13, 14]).get? 13 =
          some (.fin 100) ∨
        (rsiSeries [(0:ℚ), 1, 2, 3, 4, 5, 6, 7, 8, 9, 10, 11, 12, 13, 14]).get? 13 =
          some .nan) :=
  ⟨by norm_num [List.chain'_cons, List.chain'_singleton], le_refl 13,
    by norm_num,
    rsi_zero_loss_sentinel _
      (by norm_num [List.chain'_cons, List.chain'_singleton]) 13 (le_refl 13)
      (by norm_num)⟩

/-! ## EMA/MACD have no leading nulls, MA does (C10) -/

lemma scanl_get?_zero {α β : Type} (f : β → α → β) (b : β) (l : List α) :
    (List.scanl f b l).get? 0 = some b := by
  cases l <;> rfl

lemma foldl_add_fin (l : List PyFloat) (h : ∀ x ∈ l, ∃ q : ℚ, x = .fin q) :
    ∀ a : ℚ, ∃ s : ℚ, l.foldl PyFloat.add (.fin a) = .fin s := by
  induction l with
  | nil => exact fun a => ⟨a, rfl⟩
  | cons x xs ih =>
      intro a
      obtain ⟨q, rfl⟩ := h x (List.mem_cons_self _ _)
      obtain ⟨s, heq⟩ := ih (fun y hy => h y (List.mem_cons_of_mem _ hy)) (a + q)
      exact ⟨s, by simpa [PyFloat.add] using heq⟩

lemma ewmMean_get?_zero (span : ℕ) (c0 : ℚ) (cs : List ℚ) :
    (ewmMean span (c0 :: cs)).get? 0 = some c0 := by
  simp only [ewmMean]
  exact scanl_get?_zero _ _ _

lemma ewmMean_length (span : ℕ) (xs : List ℚ) :
    (ewmMean span xs).length = xs.length := by
  cases xs <;> simp [ewmMean, List.length_scanl]

/-- C10: on any non-empty close series, the EMA (span `p`,
`adjust=False`) series and the three MACD lines as the engine stores
them contain no null (NaN) entry at all — they are defined from the
very first row, the first EMA element being the first close and the
first MACD value `EMA12₀ − EMA26₀ = 0` — whereas `MA{p}` is null at
every position before the rolling window fills (`i < p−1`) and
numeric from position `p−1` on. -/
theorem ema_no_leading_nulls (p : ℕ) (hp : 0 < p) (c0 : ℚ) (cs : List ℚ) :
    (emaSeries p (c0 :: cs)).get? 0 = some (.fin c0) ∧
    (∀ x ∈ emaSeries p (c0 :: cs), x.isFin) ∧
    ((macdLine (c0 :: cs)).map PyFloat.fin).get? 0 = some (.fin 0) ∧
    (∀ x ∈ (macdLine (c0 :: cs)).map PyFloat.fin, x.isFin) ∧
    ((∀ x ∈ (signalLine (c0 :: cs)).map PyFloat.fin, x.isFin) ∧
      (∀ x ∈ (histogram (c0 :: cs)).map PyFloat.fin, x.isFin)) ∧
    (∀ i, i < p - 1 → i < (c0 :: cs).length →
      (maSeries p (c0 :: cs)).get? i = some .nan) ∧
    (∀ i, p - 1 ≤ i → i < (c0 :: cs).length →
      ∃ q : ℚ, (maSeries p (c0 :: cs)).get? i = some (.fin q)) := by
  refine ⟨?_, ?_, ?_, ?_, ⟨?_, ?_⟩, ?_, ?_⟩
  · simp only [emaSeries]
    rw [List.get?_map, ewmMean_get?_zero]
    rfl
  · intro x hx
    simp only [emaSeries, List.mem_map] at hx
    obtain ⟨q, -, rfl⟩ := hx
    rfl
  · have h12 := ewmMean_get?_zero 12 c0 cs
    have h26 := ewmMean_get?_zero 26 c0 cs
    rw [List.get?_map, macdLine, get?_zipWith_of_eq h12 h26]
    simp
  · intro x hx
    simp only [List.mem_map] at hx
    obtain ⟨q, -, rfl⟩ := hx
    rfl
  · intro x hx
    simp only [List.mem_map] at hx
    obtain ⟨q, -, rfl⟩ := hx
    rfl
  · intro x hx
    simp only [List.mem_map] at hx
    obtain ⟨q, -, rfl⟩ := hx
    rfl
  · intro i hilt hilen
    have hlen : i < ((c0 :: cs).map PyFloat.fin).length := by
      simpa using hilen
    rw [maSeries, rollingMean_get? _ _ _ hlen, if_pos (by omega)]
  · intro i hige hilen
    have hlen : i < ((c0 :: cs).map PyFloat.fin).length := by
      simpa using hilen
    have hwin : ∀ x ∈ window p ((c0 :: cs).map PyFloat.fin) i,
        ∃ q : ℚ, x = .fin q := by
      intro x hx
      have := mem_of_mem_window hx
      simp only [List.mem_map] at this
      obtain ⟨q, -, rfl⟩ := this
      exact ⟨q, rfl⟩
    obtain ⟨s, hfold⟩ := foldl_add_fin _ hwin 0
    refine ⟨s / p, ?_⟩
    rw [maSeries, rollingMean_get? _ _ _ hlen, if_neg (by omega),
      any_isNan_false hwin, if_neg (by simp), hfold]
    have hpne : ((p : ℚ)) ≠ 0 := by
      exact_mod_cast Nat.pos_iff_ne_zero.mp hp
    simp [PyFloat.div, hpne]

/-- C10 witness: on closes 10..14 with `p = 5`, the EMA5 series
starts at the first close, the first MACD value is 0, `MA5` is null
at position 3 (window not yet full) and numeric at position 4. -/
theorem ema_no_leading_nulls_witness :
    (emaSeries 5 [10, 11, 12, 13, 14]).get? 0 = some (.fin 10) ∧
      ((macdLine [10, 11, 12, 13, 14]).map PyFloat.fin).get? 0 = some (.fin 0) ∧
      (maSeries 5 [10, 11, 12, 13, 14]).get? 3 = some .nan ∧
      ((maSeries 5 [10, 11, 12, 13, 14]).get? 4).isSome := by
  have h := ema_no_leading_nulls 5 (by norm_num) 10 [11, 12, 13, 14]
  refine ⟨h.1, h.2.2.1, h.2.2.2.2.2.1 3 (by norm_num) (by norm_num), ?_⟩
  obtain ⟨q, hq⟩ := h.2.2.2.2.2.2 4 (by norm_num) (by norm_num)
  rw [hq]
  rfl

end FinanceServer
